import Mathlib

/-!
Verification of the Ambari MCP server (src/src/index.ts) against its
natural-language specification.  The definitions below are a shallow
embedding of the TypeScript source: each Lean `def` mirrors one piece of
the program (the HTTP gateway `executeAmbariRequest`, the resource-URI
parser `parseResourceUri`, the resource handlers for `alerts` and
`stale-configs`, and selected tool executors).  JavaScript truthiness,
object spread, and regex matching are modelled explicitly where the
source relies on them.
-/

namespace AmbariMcp

/-- A query-parameter value in a `Record<string, any>` mapping: a string,
a number, or the JavaScript value `undefined` (a key may be present with
an `undefined` value). -/
inductive QVal where
  | str (s : String)
  | num (n : Int)
  | undef
deriving DecidableEq, Repr

/-- JavaScript truthiness of an optional string (`undefined` and `""` are
falsy). -/
def strTruthy : Option String → Bool
  | some s => s ≠ ""
  | none => false

/-- JavaScript truthiness of an optional number (`undefined` and `0` are
falsy). -/
def natTruthy : Option Nat → Bool
  | some n => n ≠ 0
  | none => false

/-- Mirrors `executeAmbariRequest` line
`params: Object.keys(params).length ? params : undefined`: the `params`
field of the axios request config is the caller's mapping verbatim when it
has at least one key, and `undefined` otherwise.  No per-key filtering
happens here. -/
def configParams (params : List (String × QVal)) : Option (List (String × QVal)) :=
  if params.length ≠ 0 then some params else none

/-- The upstream response attached to an axios error (`error.response`):
HTTP status, status text, and response body. -/
structure ErrResponse where
  status : Nat
  statusText : String
  body : Option String
deriving DecidableEq, Repr

/-- An axios failure as the catch block of `executeAmbariRequest` sees it:
an optional upstream response, an optional connection `code` (for
example `ECONNREFUSED`, `ECONNABORTED`), and an optional `message`. -/
structure AxiosErr where
  response : Option ErrResponse
  code : Option String
  message : Option String
deriving DecidableEq, Repr

/-- Strip a literal character sequence `lit` from the front of `cs`,
returning the remainder on success. -/
def stripLit : List Char → List Char → Option (List Char)
  | [], cs => some cs
  | _ :: _, [] => none
  | l :: ls, c :: cs => if c = l then stripLit ls cs else none

/-- Whether `cs` contains `pat` as a contiguous run (used to model
JavaScript `RegExp.test` with a literal pattern). -/
def hasRun (pat : List Char) : List Char → Bool
  | [] => pat.isEmpty
  | c :: cs => (stripLit pat (c :: cs)).isSome || hasRun pat cs

/-- Mirrors `/timeout/i.test(s)`: case-insensitive search for the literal
`timeout` (ASCII case folding, as the pattern is ASCII). -/
def timeoutTest (s : String) : Bool :=
  hasRun "timeout".data (s.data.map Char.toLower)

/-- Mirrors
`const isTimeout = code === 'ECONNABORTED' || /timeout/i.test(error.message || '')`. -/
def isTimeoutErr (e : AxiosErr) : Bool :=
  (e.code = some "ECONNABORTED") || timeoutTest (e.message.getD "")

/-- `error.response.status` when a response is present (`const status =
hasResponse ? error.response.status : undefined`). -/
def errStatus (e : AxiosErr) : Option Nat :=
  e.response.map ErrResponse.status

/-- `error.response.statusText` when a response is present. -/
def errStatusText (e : AxiosErr) : Option String :=
  e.response.map ErrResponse.statusText

/-- The `HTTP <status> <statusText>` tag:
`` `HTTP ${status}${statusText ? ' ' + statusText : ''}` ``. -/
def httpTag (e : AxiosErr) : String :=
  "HTTP " ++ toString ((errStatus e).getD 0) ++
    (match errStatusText e with
     | some t => if t ≠ "" then " " ++ t else ""
     | none => "")

/-- Mirrors the `summaryParts` construction of the catch block of
`executeAmbariRequest`: the  method/URL line first, then `HTTP …` pushed
if `status` is truthy, `Code …` pushed if `code` is truthy and `status`
is not, `Timeout` pushed if a timeout was detected, and `No response`
pushed if there is neither a response nor a code. -/
def summaryParts (methodUpper url : String) (e : AxiosErr) : List String :=
  [methodUpper ++ " " ++ url]
  ++ (if natTruthy (errStatus e) then [httpTag e] else [])
  ++ (match e.code with
      | some c => if c ≠ "" ∧ ¬ natTruthy (errStatus e) then ["Code " ++ c] else []
      | none => [])
  ++ (if isTimeoutErr e then ["Timeout"] else [])
  ++ (if e.response.isNone ∧ ¬ strTruthy e.code then ["No response"] else [])

/-- `const baseSummary = summaryParts.join(' | ')`. -/
def baseSummary (methodUpper url : String) (e : AxiosErr) : String :=
  String.intercalate " | " (summaryParts methodUpper url e)

/-- The diagnostics object built by the catch block (the fields the
claims are about): `details.timeout = true` is set exactly when
`isTimeout` holds, and is absent otherwise. -/
structure ErrDetails where
  url : String
  method : String
  params : Option (List (String × QVal))
  code : Option String
  status : Option Nat
  statusText : Option String
  timeout : Option Bool
deriving DecidableEq, Repr

/-- Mirrors the construction of `details` in the catch block of
`executeAmbariRequest` (lines 1059–1068). -/
def buildDetails (url methodUpper : String) (params : List (String × QVal))
    (e : AxiosErr) : ErrDetails :=
  { url := url
    method := methodUpper
    params := if params.length ≠ 0 then some params else none
    code := e.code
    status := errStatus e
    statusText := errStatusText e
    timeout := if isTimeoutErr e then some true else none }

/-- The cause tag that follows `METHOD URL` first in the summary, with
the precedence the code realises: `HTTP …` when a truthy status is
present, else `Code …` when a truthy code is present, else `Timeout`
when a timeout is detected, else `No response`. -/
def firstCauseTag (e : AxiosErr) : String :=
  if natTruthy (errStatus e) then httpTag e
  else if strTruthy e.code then "Code " ++ (e.code.getD "")
  else if isTimeoutErr e then "Timeout"
  else "No response"

/-! ### Resource URI parser (`parseResourceUri`, lines 1727–1803) -/

/-- The MCP error codes the program raises. -/
inductive ECode where
  | invalidRequest
  | internalError
deriving DecidableEq, Repr

/-- An `McpError`: an error code plus a message. -/
structure McpErr where
  code : ECode
  message : String
deriving DecidableEq, Repr

/-- The return type of `parseResourceUri`:
`{ type: string; clusterName?: string; serviceName?: string; hostName?: string }`. -/
structure ResourceDescriptor where
  type : String
  clusterName : Option String
  serviceName : Option String
  hostName : Option String
deriving DecidableEq, Repr

/-- What the JavaScript regex metacharacter `.` matches (without the `s`
flag): any character except a line terminator. -/
def jsDot (c : Char) : Bool :=
  c != '\n' && c != '\r' && c != '\u2028' && c != '\u2029'

/-- Matches `uri.match(/^ambari:\/\/(.+)$/)`: the string must start with
the literal scheme and the remainder must be non-empty and consist of
`.`-matchable characters. -/
def schemeRest (cs : List Char) : Option (List Char) :=
  match stripLit "ambari://".data cs with
  | some rest => if rest ≠ [] ∧ rest.all jsDot then some rest else none
  | none => none

/-- Split a character list at its first `'/'`: the first component is the
run of non-slash characters before it, the second is `some` remainder
when a slash occurs. -/
def splitSeg : List Char → List Char × Option (List Char)
  | [] => ([], none)
  | c :: cs =>
      if c = '/' then ([], some cs)
      else
        let p := splitSeg cs
        (c :: p.1, p.2)

/-- Matches the tail of `/^cluster\/([^\/]+)(?:\/(.+))?$/` (and of the
analogous `service` regex) after the literal part: one or more non-slash
characters, optionally followed by `'/'` and a non-empty `.`-matchable
remainder. -/
def segTail (rest : List Char) : Option (List Char × Option (List Char)) :=
  let p := splitSeg rest
  if p.1 = [] then none
  else
    match p.2 with
    | none => some (p.1, none)
    | some sp => if sp ≠ [] ∧ sp.all jsDot then some (p.1, some sp) else none

/-- Matches `subPath.match(/^service\/([^\/]+)(?:\/(.+))?$/)`. -/
def serviceMatch (sp : List Char) : Option (List Char × Option (List Char)) :=
  match stripLit "service/".data sp with
  | some r => segTail r
  | none => none

/-- The final `host/` check of `parseResourceUri`: when the path starts
with `host/` and the remainder matches `(.+)` the host descriptor is
returned; every other path reaching this point raises
`Unsupported resource URI`. -/
def hostCheck (path : List Char) (uri : String) : Except McpErr ResourceDescriptor :=
  match stripLit "host/".data path with
  | some rest =>
      if rest ≠ [] ∧ rest.all jsDot then
        .ok ⟨"host", none, none, some (String.mk rest)⟩
      else .error ⟨.invalidRequest, "Unsupported resource URI: " ++ uri⟩
  | none => .error ⟨.invalidRequest, "Unsupported resource URI: " ++ uri⟩

/-- The sub-path dispatch inside the `cluster/` branch: the fixed literal
suffixes first, then the `service/…` match; an unmatched sub-path falls
through to the host check (which, for a `cluster/…` path, raises
`Unsupported resource URI`). -/
def clusterSub (clusterName : List Char) (sp path : List Char) (uri : String) :
    Except McpErr ResourceDescriptor :=
  if sp = "services".data then .ok ⟨"services", some (String.mk clusterName), none, none⟩
  else if sp = "hosts".data then .ok ⟨"hosts", some (String.mk clusterName), none, none⟩
  else if sp = "alerts".data then .ok ⟨"alerts", some (String.mk clusterName), none, none⟩
  else if sp = "alerts/summary".data then
    .ok ⟨"alerts-summary", some (String.mk clusterName), none, none⟩
  else if sp = "services/stale-configs".data then
    .ok ⟨"stale-configs", some (String.mk clusterName), none, none⟩
  else if sp = "requests/recent".data then
    .ok ⟨"recent-requests", some (String.mk clusterName), none, none⟩
  else if sp = "configurations".data then
    .ok ⟨"configurations", some (String.mk clusterName), none, none⟩
  else
    match serviceMatch sp with
    | some (svc, none) =>
        .ok ⟨"service", some (String.mk clusterName), some (String.mk svc), none⟩
    | some (svc, some ssp) =>
        if ssp = "components".data then
          .ok ⟨"service-components", some (String.mk clusterName), some (String.mk svc), none⟩
        else hostCheck path uri
    | none => hostCheck path uri

/-- The embedding of `parseResourceUri` (lines 1727–1803): match the
scheme, then the exact `clusters` literal, then the `cluster/…` grammar,
then the `host/…` grammar; everything else raises an `InvalidRequest`
error. -/
def parseResourceUri (uri : String) : Except McpErr ResourceDescriptor :=
  match schemeRest uri.data with
  | none => .error ⟨.invalidRequest, "Invalid resource URI: " ++ uri⟩
  | some path =>
    if path = "clusters".data then .ok ⟨"clusters", none, none, none⟩
    else
      match stripLit "cluster/".data path with
      | some rest =>
          match segTail rest with
          | none => .error ⟨.invalidRequest, "Invalid cluster resource URI: " ++ uri⟩
          | some (clusterName, none) =>
              .ok ⟨"cluster", some (String.mk clusterName), none, none⟩
          | some (clusterName, some sp) => clusterSub clusterName sp path uri
      | none => hostCheck path uri

/-- The closed set of resource kinds that require a cluster name. -/
def clusterKinds : List String :=
  ["cluster", "services", "hosts", "alerts", "alerts-summary",
   "stale-configs", "recent-requests", "configurations"]

/-- A descriptor is fully filled when its kind is in the closed set and
every path parameter that kind requires is present and non-empty. -/
def descriptorFilled (d : ResourceDescriptor) : Bool :=
  if d.type = "clusters" then true
  else if d.type ∈ clusterKinds then strTruthy d.clusterName
  else if d.type = "service" ∨ d.type = "service-components" then
    strTruthy d.clusterName && strTruthy d.serviceName
  else if d.type = "host" then strTruthy d.hostName
  else false

/-! ### Alerts resource handler (lines 1852–1887) -/

/-- One item of the upstream alert list; `alertState` models
`alert.Alert?.state` (`none` when `Alert` or `state` is absent). -/
structure AlertItem where
  alertState : Option String
deriving DecidableEq, Repr

/-- The effective state used as bucket key:
`const state = alert.Alert?.state || 'UNKNOWN'` (an absent or empty state
is falsy and defaults to `UNKNOWN`). -/
def effState (a : AlertItem) : String :=
  match a.alertState with
  | some s => if s = "" then "UNKNOWN" else s
  | none => "UNKNOWN"

/-- The four fixed buckets of `alertsByState`. -/
structure AlertBuckets where
  critical : List AlertItem
  warning : List AlertItem
  ok : List AlertItem
  unknown : List AlertItem
deriving DecidableEq, Repr

/-- The property names a plain JavaScript object inherits from
`Object.prototype`: for these keys `obj[key]` is truthy even when the
object has no own entry (the inherited value is a function, or the
prototype object itself for `__proto__`), and calling `.push` on that
inherited value throws a `TypeError`. -/
def protoKeys : List String :=
  ["constructor", "hasOwnProperty", "isPrototypeOf", "propertyIsEnumerable",
   "toLocaleString", "toString", "valueOf", "__defineGetter__",
   "__defineSetter__", "__lookupGetter__", "__lookupSetter__", "__proto__"]

/-- Whether a string is one of the inherited `Object.prototype` property
names. -/
def isProtoKey (s : String) : Bool :=
  s ∈ protoKeys

/-- One step of the `forEach` loop:
`if (alertsByState[state]) { alertsByState[state].push(alert); }` — the
bracket lookup walks the prototype chain, so it is truthy for the four
own keys (push into that bucket) and for the inherited
`Object.prototype` property names (where `.push` throws a `TypeError`);
for every other state it is `undefined` and the item is pushed
nowhere. -/
def pushAlert (b : AlertBuckets) (a : AlertItem) : Except String AlertBuckets :=
  let s := effState a
  if s = "CRITICAL" then .ok { b with critical := b.critical ++ [a] }
  else if s = "WARNING" then .ok { b with warning := b.warning ++ [a] }
  else if s = "OK" then .ok { b with ok := b.ok ++ [a] }
  else if s = "UNKNOWN" then .ok { b with unknown := b.unknown ++ [a] }
  else if isProtoKey s then
    .error "TypeError: alertsByState[state].push is not a function"
  else .ok b

/-- The bucketing performed by the `alerts` resource handler over the
upstream item list; the whole handler throws when any step throws. -/
def alertsByState (items : List AlertItem) : Except String AlertBuckets :=
  items.foldlM pushAlert ⟨[], [], [], []⟩

/-- The non-throwing part of one bucketing step, used to state what the
loop computes when no step throws. -/
def pushAlertP (b : AlertBuckets) (a : AlertItem) : AlertBuckets :=
  let s := effState a
  if s = "CRITICAL" then { b with critical := b.critical ++ [a] }
  else if s = "WARNING" then { b with warning := b.warning ++ [a] }
  else if s = "OK" then { b with ok := b.ok ++ [a] }
  else if s = "UNKNOWN" then { b with unknown := b.unknown ++ [a] }
  else b

/-- The `summary` object of the `alerts` handler response:
`(critical, warning, ok, unknown)` bucket counts. -/
def alertsSummary (b : AlertBuckets) : Nat × Nat × Nat × Nat :=
  (b.critical.length, b.warning.length, b.ok.length, b.unknown.length)

/-! ### Stale-configs resource handler (lines 1902–1933) -/

/-- One stale host-component item; `serviceName` models
`item.HostRoles?.service_name` (`none` when `HostRoles` or
`service_name` is absent). -/
structure StaleItem where
  serviceName : Option String
  componentName : Option String
  hostName : Option String
deriving DecidableEq, Repr

/-- Whether the item carries a truthy service name
(`if (serviceName) { … }`). -/
def svcTruthy (it : StaleItem) : Bool :=
  strTruthy it.serviceName

/-- Append `it` to the group of key `s` of the assoc-list `acc`,
creating the group at the end when the key is new (a JavaScript object
holds one entry per key, in first-insertion order). -/
def groupAdd : List (String × List StaleItem) → String → StaleItem →
    List (String × List StaleItem)
  | [], s, it => [(s, [it])]
  | g :: gs, s, it =>
      if g.1 = s then (g.1, g.2 ++ [it]) :: gs else g :: groupAdd gs s it

/-- One step of the grouping loop of the `stale-configs` handler
(`if (serviceName) { if (!staleByService[serviceName]) { … = []; }
staleByService[serviceName].push(item); }`): items without a truthy
service name are skipped; when the key is already an own group it is
pushed to; when the key is absent but is an inherited `Object.prototype`
property name, the `!staleByService[serviceName]` guard sees a truthy
inherited value, skips the initialisation, and `.push` on the inherited
value throws a `TypeError`; otherwise a new group is created and pushed
to. -/
def staleStep (acc : List (String × List StaleItem)) (it : StaleItem) :
    Except String (List (String × List StaleItem)) :=
  match it.serviceName with
  | some s =>
      if s ≠ "" then
        if acc.any (fun g => g.1 = s) then .ok (groupAdd acc s it)
        else if isProtoKey s then
          .error "TypeError: staleByService[serviceName].push is not a function"
        else .ok (groupAdd acc s it)
      else .ok acc
  | none => .ok acc

/-- `staleByService`: the grouping of the upstream item list by declared
service name; the whole handler throws when any step throws. -/
def staleByService (items : List StaleItem) :
    Except String (List (String × List StaleItem)) :=
  items.foldlM staleStep []

/-- The non-throwing part of one grouping step, used to state what the
loop computes when no step throws. -/
def staleStepP (acc : List (String × List StaleItem)) (it : StaleItem) :
    List (String × List StaleItem) :=
  match it.serviceName with
  | some s => if s ≠ "" then groupAdd acc s it else acc
  | none => acc

/-- The summary object of the `stale-configs` handler, computed after
the grouping loop: `totalStaleComponents` is the length of the full
upstream item list and `affectedServices` the number of group keys. -/
def staleSummary (items : List StaleItem)
    (gs : List (String × List StaleItem)) : Nat × Nat :=
  (items.length, gs.length)

/-! ### Tool executors -/

/-- Look up a key in a string-valued property mapping (association list,
first match wins, as for JavaScript object access). -/
def lookupStr (props : List (String × String)) (k : String) : Option String :=
  (props.find? (fun p => p.1 = k)).map Prod.snd

/-- JavaScript object spread `{...props, key: v}`: when `key` already
exists its value is overwritten in place, otherwise the pair is appended
at the end. -/
def setKeyStr (props : List (String × String)) (key v : String) :
    List (String × String) :=
  if props.any (fun p => p.1 = key) then
    props.map (fun p => if p.1 = key then (key, v) else p)
  else props ++ [(key, v)]

/-- The properties submitted by `ambari_alerts_savealertsettings`
(lines 1336–1339): the current properties with `alerts_repeat_tolerance`
set to the stringified tolerance. -/
def saveAlertSettingsProperties (currentProperties : List (String × String))
    (alertRepeatTolerance : Int) : List (String × String) :=
  setKeyStr currentProperties "alerts_repeat_tolerance" (toString alertRepeatTolerance)

/-- The `desired_config` payload written back by the save-alert-settings
executor. -/
structure DesiredConfig where
  type : String
  properties : List (String × String)
deriving DecidableEq, Repr

/-- The request body of `ambari_alerts_savealertsettings`
(lines 1341–1348). -/
def saveAlertSettingsBody (currentProperties : List (String × String))
    (alertRepeatTolerance : Int) : DesiredConfig :=
  ⟨"cluster-env", saveAlertSettingsProperties currentProperties alertRepeatTolerance⟩

/-- One entry of a source alert group's `definitions` list: a raw
numeric ID, an object exposing an `id` field, or any other value
(skipped by the extraction loop). -/
inductive AlertDef where
  | num (n : Int)
  | objWithId (id : Int)
  | other
deriving DecidableEq, Repr

/-- One step of the ID-extraction `forEach` of
`ambari_alerts_duplicatealertgroup` (lines 1265–1273). -/
def extractStep (acc : List Int) (d : AlertDef) : List Int :=
  match d with
  | .num n => acc ++ [n]
  | .objWithId i => acc ++ [i]
  | .other => acc

/-- The definition-ID list extracted from the source group. -/
def extractDefinitionIds (defs : List AlertDef) : List Int :=
  defs.foldl extractStep []

/-- The `AlertGroup` body of the creation request of
`ambari_alerts_duplicatealertgroup` (lines 1276–1281). -/
structure AlertGroupBody where
  name : String
  definitions : List Int
deriving DecidableEq, Repr

/-- Build the creation body from the new group name and the source
definitions. -/
def duplicateGroupBody (newGroupName : String) (defs : List AlertDef) : AlertGroupBody :=
  ⟨newGroupName, extractDefinitionIds defs⟩

/-- Encode a mixed definitions list in which every entry is either a raw
numeric ID (`true`) or an object exposing an `id` field (`false`). -/
def mixedDefs (ids : List (Bool × Int)) : List AlertDef :=
  ids.map (fun p => if p.1 then AlertDef.num p.2 else AlertDef.objWithId p.2)

/-! ### HTTP gateway request building and the get-cluster executor -/

/-- The arguments `executeAmbariRequest` is called with: method, path and
query-parameter mapping (the body is omitted for the calls the claims
are about). -/
structure RequestSpec where
  method : String
  path : String
  params : List (String × QVal)
deriving DecidableEq, Repr

/-- The part of the axios request config the claims are about
(lines 1015–1031): the URL is the base URL with the path appended
verbatim, and the `params` field is the mapping or `undefined`. -/
structure AxiosCfg where
  url : String
  method : String
  params : Option (List (String × QVal))
deriving DecidableEq, Repr

/-- Build the axios request config from a request spec
(`method.toLowerCase()`, `url = AMBARI_BASE_URL + path`,
`params = Object.keys(params).length ? params : undefined`). -/
def buildAxiosCfg (baseUrl : String) (r : RequestSpec) : AxiosCfg :=
  ⟨baseUrl ++ r.path, r.method.toLower, configParams r.params⟩

/-- The parsed upstream success response. -/
structure HttpResponse (α : Type) where
  status : Nat
  statusText : String
  data : α

/-- The success envelope returned by `executeAmbariRequest`
(lines 1035–1039): `{status, statusText, data}` with `data` the parsed
body verbatim. -/
def successEnvelope {α : Type} (resp : HttpResponse α) : HttpResponse α :=
  ⟨resp.status, resp.statusText, resp.data⟩

/-- The single request issued by `ambari_clusters_getcluster`
(lines 1095–1100): a GET to `/clusters/${clusterName}` whose params
mapping contains `fields` exactly when the argument is truthy. -/
def getClusterRequest (clusterName : String) (fields : Option String) : RequestSpec :=
  ⟨"GET", "/clusters/" ++ clusterName,
    match fields with
    | some f => if f ≠ "" then [("fields", QVal.str f)] else []
    | none => []⟩

/-! ## Helper lemmas -/

lemma lookup_setKey_self (ps : List (String × String)) (key v : String) :
    lookupStr (setKeyStr ps key v) key = some v := by
  unfold setKeyStr
  by_cases h : ps.any (fun p => p.1 = key) = true
  · simp only [h, if_true]
    induction ps with
    | nil => simp at h
    | cons p ps ih =>
        by_cases hp : p.1 = key
        · simp [lookupStr, List.map_cons, hp, List.find?_cons_of_pos]
        · rw [List.any_cons] at h
          simp only [decide_eq_false hp, Bool.false_or] at h
          simp only [List.map_cons, if_neg hp, lookupStr]
          rw [List.find?_cons_of_neg _ (by simpa using hp)]
          exact ih h
  · simp only [h, if_false, lookupStr, List.find?_append]
    have hnone : (ps.find? fun p => p.1 = key) = none := by
      rw [List.find?_eq_none]
      intro x hx
      simp only [decide_eq_true_eq]
      intro hk
      exact h (List.any_eq_true.mpr ⟨x, hx, by simpa using hk⟩)
    simp [hnone, List.find?]

lemma lookup_setKey_other (ps : List (String × String)) (key v k : String)
    (hk : k ≠ key) : lookupStr (setKeyStr ps key v) k = lookupStr ps k := by
  unfold setKeyStr
  by_cases h : ps.any (fun p => p.1 = key) = true
  · simp only [h, if_true]
    induction ps with
    | nil => simp
    | cons p ps ih =>
        by_cases hp : p.1 = key
        · have hkk : ¬ ((key, v).1 = k) := by simpa using fun hc => hk hc.symm
          have hpk : ¬ (p.1 = k) := by rw [hp]; simpa using fun hc => hk hc.symm
          simp only [List.map_cons, if_pos hp, lookupStr]
          rw [List.find?_cons_of_neg _ (by simpa using hkk),
            List.find?_cons_of_neg _ (by simpa using hpk)]
          by_cases hany : ps.any (fun p => p.1 = key) = true
          · exact ih hany
          · have : (ps.map fun p => if p.1 = key then (key, v) else p) = ps := by
              have hcongr := List.map_congr_left (l := ps)
                (f := fun p => if p.1 = key then (key, v) else p) (g := id) ?_
              · simpa using hcongr
              · intro x hx
                have hxk : ¬ (x.1 = key) := fun hc =>
                  hany (List.any_eq_true.mpr ⟨x, hx, by simpa using hc⟩)
                simp [hxk]
            rw [this]
        · simp only [List.map_cons, if_neg hp, lookupStr]
          by_cases hpk : p.1 = k
          · rw [List.find?_cons_of_pos _ (by simpa using hpk),
              List.find?_cons_of_pos _ (by simpa using hpk)]
          · rw [List.find?_cons_of_neg _ (by simpa using hpk),
              List.find?_cons_of_neg _ (by simpa using hpk)]
            rw [List.any_cons] at h
            simp only [decide_eq_false hp, Bool.false_or] at h
            exact ih h
  · simp only [h, if_false, lookupStr, List.find?_append]
    have : (List.find? (fun p => p.1 = k) [(key, v)]) = none := by
      rw [List.find?_eq_none]
      intro x hx
      simp only [List.mem_singleton] at hx
      subst hx
      simpa using fun hc => hk hc.symm
    simp [this]

lemma alerts_foldl_spec (items : List AlertItem) : ∀ b : AlertBuckets,
    (items.foldl pushAlertP b).critical
      = b.critical ++ items.filter (fun a => effState a = "CRITICAL") ∧
    (items.foldl pushAlertP b).warning
      = b.warning ++ items.filter (fun a => effState a = "WARNING") ∧
    (items.foldl pushAlertP b).ok
      = b.ok ++ items.filter (fun a => effState a = "OK") ∧
    (items.foldl pushAlertP b).unknown
      = b.unknown ++ items.filter (fun a => effState a = "UNKNOWN") := by
  induction items with
  | nil => intro b; simp
  | cons a items ih =>
      intro b
      simp only [List.foldl_cons, List.filter_cons]
      obtain ⟨ih1, ih2, ih3, ih4⟩ := ih (pushAlertP b a)
      by_cases h1 : effState a = "CRITICAL"
      · simp only [h1]
        have hb : pushAlertP b a = { b with critical := b.critical ++ [a] } := by
          simp [pushAlertP, h1]
        rw [hb] at ih1 ih2 ih3 ih4 ⊢
        refine ⟨?_, ?_, ?_, ?_⟩ <;> simp [ih1, ih2, ih3, ih4]
      · by_cases h2 : effState a = "WARNING"
        · simp only [h1, h2]
          have hb : pushAlertP b a = { b with warning := b.warning ++ [a] } := by
            simp [pushAlertP, h1, h2]
          rw [hb] at ih1 ih2 ih3 ih4 ⊢
          refine ⟨?_, ?_, ?_, ?_⟩ <;> simp [ih1, ih2, ih3, ih4]
        · by_cases h3 : effState a = "OK"
          · simp only [h1, h2, h3]
            have hb : pushAlertP b a = { b with ok := b.ok ++ [a] } := by
              simp [pushAlertP, h1, h2, h3]
            rw [hb] at ih1 ih2 ih3 ih4 ⊢
            refine ⟨?_, ?_, ?_, ?_⟩ <;> simp [ih1, ih2, ih3, ih4]
          · by_cases h4 : effState a = "UNKNOWN"
            · simp only [h1, h2, h3, h4]
              have hb : pushAlertP b a = { b with unknown := b.unknown ++ [a] } := by
                simp [pushAlertP, h1, h2, h3, h4]
              rw [hb] at ih1 ih2 ih3 ih4 ⊢
              refine ⟨?_, ?_, ?_, ?_⟩ <;> simp [ih1, ih2, ih3, ih4]
            · simp only [h1, h2, h3, h4]
              have hb : pushAlertP b a = b := by
                simp [pushAlertP, h1, h2, h3, h4]
              rw [hb] at ih1 ih2 ih3 ih4 ⊢
              exact ⟨by simp [ih1], by simp [ih2], by simp [ih3], by simp [ih4]⟩

/-- The four known alert states. -/
def knownAlertStates : List String := ["CRITICAL", "WARNING", "OK", "UNKNOWN"]

lemma alerts_sum_spec (items : List AlertItem) :
    (items.filter (fun a => effState a = "CRITICAL")).length
      + (items.filter (fun a => effState a = "WARNING")).length
      + (items.filter (fun a => effState a = "OK")).length
      + (items.filter (fun a => effState a = "UNKNOWN")).length
    = (items.filter (fun a => effState a ∈ knownAlertStates)).length := by
  induction items with
  | nil => simp
  | cons a items ih =>
      simp only [List.filter_cons]
      by_cases h1 : effState a = "CRITICAL"
      · have hmem : ("CRITICAL" : String) ∈ knownAlertStates := by
          simp [knownAlertStates]
        simp [h1, hmem]
        omega
      · by_cases h2 : effState a = "WARNING"
        · have hmem : ("WARNING" : String) ∈ knownAlertStates := by
            simp [knownAlertStates]
          simp [h1, h2, hmem]
          omega
        · by_cases h3 : effState a = "OK"
          · have hmem : ("OK" : String) ∈ knownAlertStates := by
              simp [knownAlertStates]
            simp [h1, h2, h3, hmem]
            omega
          · by_cases h4 : effState a = "UNKNOWN"
            · have hmem : ("UNKNOWN" : String) ∈ knownAlertStates := by
                simp [knownAlertStates]
              simp [h1, h2, h3, h4, hmem]
              omega
            · have hmem : ¬ (effState a ∈ knownAlertStates) := by
                simp [knownAlertStates, h1, h2, h3, h4]
              simp [h1, h2, h3, h4, hmem, ih]

lemma protoKey_ne_states {s : String} (h : isProtoKey s = true) :
    s ≠ "CRITICAL" ∧ s ≠ "WARNING" ∧ s ≠ "OK" ∧ s ≠ "UNKNOWN" := by
  simp only [isProtoKey, protoKeys, List.mem_cons, List.not_mem_nil, or_false,
    decide_eq_true_eq] at h
  rcases h with rfl | rfl | rfl | rfl | rfl | rfl | rfl | rfl | rfl | rfl | rfl | rfl <;>
    exact ⟨by decide, by decide, by decide, by decide⟩

lemma pushAlert_ok {a : AlertItem} (h : isProtoKey (effState a) = false)
    (b : AlertBuckets) : pushAlert b a = .ok (pushAlertP b a) := by
  by_cases h1 : effState a = "CRITICAL"
  · simp [pushAlert, pushAlertP, h1]
  · by_cases h2 : effState a = "WARNING"
    · simp [pushAlert, pushAlertP, h1, h2]
    · by_cases h3 : effState a = "OK"
      · simp [pushAlert, pushAlertP, h1, h2, h3]
      · by_cases h4 : effState a = "UNKNOWN"
        · simp [pushAlert, pushAlertP, h1, h2, h3, h4]
        · simp [pushAlert, pushAlertP, h1, h2, h3, h4, h]

lemma pushAlert_error {a : AlertItem} (h : isProtoKey (effState a) = true)
    (b : AlertBuckets) :
    pushAlert b a = .error "TypeError: alertsByState[state].push is not a function" := by
  obtain ⟨n1, n2, n3, n4⟩ := protoKey_ne_states h
  simp [pushAlert, n1, n2, n3, n4, h]

lemma alertsFoldM_ok (items : List AlertItem) : ∀ b : AlertBuckets,
    (∀ a ∈ items, isProtoKey (effState a) = false) →
    items.foldlM pushAlert b = .ok (items.foldl pushAlertP b) := by
  induction items with
  | nil => intro b _; rfl
  | cons a items ih =>
      intro b hp
      rw [List.foldlM_cons, pushAlert_ok (hp a (List.mem_cons_self a items)) b]
      simp only [List.foldl_cons]
      exact ih (pushAlertP b a) (fun x hx => hp x (List.mem_cons_of_mem _ hx))

lemma alertsFoldM_error (items : List AlertItem) : ∀ b : AlertBuckets,
    (∃ a ∈ items, isProtoKey (effState a) = true) →
    ∃ e, items.foldlM pushAlert b = .error e := by
  induction items with
  | nil => intro b hp; simp at hp
  | cons a items ih =>
      intro b hp
      by_cases ha : isProtoKey (effState a) = true
      · refine ⟨"TypeError: alertsByState[state].push is not a function", ?_⟩
        rw [List.foldlM_cons, pushAlert_error ha b]
        rfl
      · have ha' : isProtoKey (effState a) = false := by simpa using ha
        obtain ⟨x, hx, hpx⟩ := hp
        rcases List.mem_cons.mp hx with rfl | hx'
        · exact absurd hpx ha
        · obtain ⟨e, he⟩ := ih (pushAlertP b a) ⟨x, hx', hpx⟩
          refine ⟨e, ?_⟩
          rw [List.foldlM_cons, pushAlert_ok ha' b]
          exact he

/-- The union (concatenation) of all per-service groups' item lists. -/
def groupsFlat (gs : List (String × List StaleItem)) : List StaleItem :=
  (gs.map Prod.snd).flatten

lemma groupsFlat_groupAdd (gs : List (String × List StaleItem)) (s : String)
    (it : StaleItem) :
    (groupsFlat (groupAdd gs s it)).Perm (groupsFlat gs ++ [it]) := by
  induction gs with
  | nil => simp [groupAdd, groupsFlat]
  | cons g gs ih =>
      by_cases h : g.1 = s
      · simp only [groupAdd, if_pos h, groupsFlat, List.map_cons, List.flatten_cons]
        simp only [List.append_assoc]
        exact List.Perm.append_left g.2 List.perm_append_comm
      · simp only [groupAdd, if_neg h, groupsFlat, List.map_cons, List.flatten_cons]
        rw [List.append_assoc]
        exact List.Perm.append_left g.2 (by simpa [groupsFlat] using ih)

lemma staleFold_perm (items : List StaleItem) : ∀ acc,
    (groupsFlat (items.foldl staleStepP acc)).Perm
      (groupsFlat acc ++ items.filter svcTruthy) := by
  induction items with
  | nil => intro acc; simp
  | cons it items ih =>
      intro acc
      simp only [List.foldl_cons, List.filter_cons]
      rcases hsv : it.serviceName with _ | s
      · have hstep : staleStepP acc it = acc := by simp [staleStepP, hsv]
        have hft : svcTruthy it = false := by simp [svcTruthy, strTruthy, hsv]
        rw [hstep, if_neg (by simp [hft])]
        exact ih acc
      · by_cases hs : s = ""
        · have hstep : staleStepP acc it = acc := by simp [staleStepP, hsv, hs]
          have hft : svcTruthy it = false := by simp [svcTruthy, strTruthy, hsv, hs]
          rw [hstep, if_neg (by simp [hft])]
          exact ih acc
        · have hstep : staleStepP acc it = groupAdd acc s it := by
            simp [staleStepP, hsv, hs]
          have hft : svcTruthy it = true := by simp [svcTruthy, strTruthy, hsv, hs]
          rw [hstep, if_pos (by simp [hft])]
          have h1 := ih (groupAdd acc s it)
          have h2 := groupsFlat_groupAdd acc s it
          refine h1.trans (((List.Perm.append_right _ h2)).trans ?_)
          rw [List.append_assoc]
          simp

/-- The per-group invariant of the stale-configs grouping: every group
key is a non-empty service name and every item of a group declares
exactly that service. -/
def groupsWf (gs : List (String × List StaleItem)) : Prop :=
  ∀ g ∈ gs, g.1 ≠ "" ∧ ∀ x ∈ g.2, x.serviceName = some g.1

lemma groupAdd_wf {gs : List (String × List StaleItem)} {s : String} {it : StaleItem}
    (h : groupsWf gs) (hs : s ≠ "") (hit : it.serviceName = some s) :
    groupsWf (groupAdd gs s it) := by
  induction gs with
  | nil =>
      intro g hg
      simp only [groupAdd, List.mem_singleton] at hg
      subst hg
      exact ⟨hs, fun x hx => by
        simp only [List.mem_singleton] at hx
        subst hx
        exact hit⟩
  | cons g gs ih =>
      by_cases h1 : g.1 = s
      · intro g' hg'
        simp only [groupAdd, if_pos h1, List.mem_cons] at hg'
        rcases hg' with hg' | hg'
        · subst hg'
          refine ⟨(h g (List.mem_cons_self _ _)).1, fun x hx => ?_⟩
          rcases List.mem_append.mp hx with hx | hx
          · exact (h g (List.mem_cons_self _ _)).2 x hx
          · simp only [List.mem_singleton] at hx
            subst hx
            rw [hit, h1]
        · exact h g' (List.mem_cons_of_mem _ hg')
      · intro g' hg'
        simp only [groupAdd, if_neg h1, List.mem_cons] at hg'
        rcases hg' with hg' | hg'
        · subst hg'
          exact h g' (List.mem_cons_self _ _)
        · exact ih (fun g'' hg'' => h g'' (List.mem_cons_of_mem _ hg'')) g' hg'

lemma staleFold_wf (items : List StaleItem) : ∀ acc, groupsWf acc →
    groupsWf (items.foldl staleStepP acc) := by
  induction items with
  | nil => intro acc h; exact h
  | cons it items ih =>
      intro acc h
      simp only [List.foldl_cons]
      rcases hsv : it.serviceName with _ | s
      · rw [show staleStepP acc it = acc from by simp [staleStepP, hsv]]
        exact ih acc h
      · by_cases hs : s = ""
        · rw [show staleStepP acc it = acc from by simp [staleStepP, hsv, hs]]
          exact ih acc h
        · rw [show staleStepP acc it = groupAdd acc s it from by simp [staleStepP, hsv, hs]]
          exact ih _ (groupAdd_wf h hs hsv)

/-- Whether an item's declared service name is an inherited
`Object.prototype` property name (the condition under which the
grouping loop throws). -/
def svcProto (it : StaleItem) : Bool :=
  match it.serviceName with
  | some s => isProtoKey s
  | none => false

/-- The group keys built so far are never inherited property names
(groups are only ever created in the branch that excludes them). -/
def keysOk (gs : List (String × List StaleItem)) : Prop :=
  ∀ g ∈ gs, isProtoKey g.1 = false

lemma protoKey_ne_empty {s : String} (h : isProtoKey s = true) : s ≠ "" := by
  intro hs
  rw [hs] at h
  exact absurd h (by decide)

lemma groupAdd_keysOk {gs : List (String × List StaleItem)} {s : String}
    {it : StaleItem} (h : keysOk gs) (hs : isProtoKey s = false) :
    keysOk (groupAdd gs s it) := by
  induction gs with
  | nil =>
      intro g hg
      simp only [groupAdd, List.mem_singleton] at hg
      subst hg
      exact hs
  | cons g gs ih =>
      intro g' hg'
      by_cases h1 : g.1 = s
      · simp only [groupAdd, if_pos h1, List.mem_cons] at hg'
        rcases hg' with rfl | hg'
        · exact h g (List.mem_cons_self _ _)
        · exact h g' (List.mem_cons_of_mem _ hg')
      · simp only [groupAdd, if_neg h1, List.mem_cons] at hg'
        rcases hg' with rfl | hg'
        · exact h g' (List.mem_cons_self _ _)
        · exact ih (fun x hx => h x (List.mem_cons_of_mem _ hx)) g' hg'

lemma staleStep_ok {acc : List (String × List StaleItem)} {it : StaleItem}
    (hp : svcProto it = false) : staleStep acc it = .ok (staleStepP acc it) := by
  rcases hsv : it.serviceName with _ | s
  · simp [staleStep, staleStepP, hsv]
  · have hpf : isProtoKey s = false := by simpa [svcProto, hsv] using hp
    by_cases hs : s = ""
    · simp [staleStep, staleStepP, hsv, hs]
    · simp [staleStep, staleStepP, hsv, hs, hpf]

lemma staleStep_error {acc : List (String × List StaleItem)} {it : StaleItem}
    {s : String} (hko : keysOk acc) (hsv : it.serviceName = some s)
    (hproto : isProtoKey s = true) :
    staleStep acc it
      = .error "TypeError: staleByService[serviceName].push is not a function" := by
  have hs : s ≠ "" := protoKey_ne_empty hproto
  have hany : acc.any (fun g => g.1 = s) = false := by
    rcases hval : acc.any (fun g => g.1 = s) with _ | _
    · rfl
    · obtain ⟨g, hg, hgs⟩ := List.any_eq_true.mp hval
      have hf := hko g hg
      rw [decide_eq_true_eq.mp hgs] at hf
      exact absurd hproto (by simp [hf])
  simp [staleStep, hsv, hs, hany, hproto]

lemma staleStep_ok_keysOk {acc acc' : List (String × List StaleItem)}
    {it : StaleItem} (hko : keysOk acc) (h : staleStep acc it = .ok acc') :
    keysOk acc' := by
  rcases hsv : it.serviceName with _ | s
  · simp [staleStep, hsv] at h
    rw [← h]
    exact hko
  · by_cases hs : s = ""
    · simp [staleStep, hsv, hs] at h
      rw [← h]
      exact hko
    · by_cases hany : acc.any (fun g => g.1 = s) = true
      · have hsp : isProtoKey s = false := by
          obtain ⟨g, hg, hgs⟩ := List.any_eq_true.mp hany
          rw [← decide_eq_true_eq.mp hgs]
          exact hko g hg
        simp [staleStep, hsv, hs, hany] at h
        rw [← h]
        exact groupAdd_keysOk hko hsp
      · by_cases hsp : isProtoKey s = true
        · simp [staleStep, hsv, hs, hany, hsp] at h
        · have hsp' : isProtoKey s = false := by simpa using hsp
          simp [staleStep, hsv, hs, hany, hsp'] at h
          rw [← h]
          exact groupAdd_keysOk hko hsp'

lemma staleFoldM_ok (items : List StaleItem) : ∀ acc,
    (∀ it ∈ items, svcProto it = false) →
    items.foldlM staleStep acc = .ok (items.foldl staleStepP acc) := by
  induction items with
  | nil => intro acc _; rfl
  | cons it items ih =>
      intro acc hp
      rw [List.foldlM_cons, staleStep_ok (hp it (List.mem_cons_self _ _))]
      simp only [List.foldl_cons]
      exact ih (staleStepP acc it) (fun x hx => hp x (List.mem_cons_of_mem _ hx))

lemma staleFoldM_error (items : List StaleItem) : ∀ acc, keysOk acc →
    (∃ it ∈ items, svcProto it = true) →
    ∃ e, items.foldlM staleStep acc = .error e := by
  induction items with
  | nil => intro acc _ hp; simp at hp
  | cons it items ih =>
      intro acc hko hp
      by_cases hit : svcProto it = true
      · rcases hsv : it.serviceName with _ | s
        · rw [svcProto, hsv] at hit
          cases hit
        · have hproto : isProtoKey s = true := by
            rw [svcProto, hsv] at hit
            exact hit
          refine ⟨"TypeError: staleByService[serviceName].push is not a function", ?_⟩
          rw [List.foldlM_cons, staleStep_error hko hsv hproto]
          rfl
      · have hit' : svcProto it = false := by simpa using hit
        obtain ⟨x, hx, hxs⟩ := hp
        rcases List.mem_cons.mp hx with rfl | hx'
        · exact absurd hxs hit
        · have hok := @staleStep_ok acc it hit'
          obtain ⟨e, he⟩ := ih (staleStepP acc it)
            (staleStep_ok_keysOk hko hok) ⟨x, hx', hxs⟩
          refine ⟨e, ?_⟩
          rw [List.foldlM_cons, hok]
          exact he

lemma mk_ne_empty {l : List Char} (h : l ≠ []) : String.mk l ≠ "" := by
  intro hc
  apply h
  have hd := congrArg String.data hc
  simpa using hd

lemma strTruthy_mk {l : List Char} (h : l ≠ []) :
    strTruthy (some (String.mk l)) = true :=
  decide_eq_true (mk_ne_empty h)

lemma segTail_some {rest name : List Char} {sub : Option (List Char)}
    (h : segTail rest = some (name, sub)) :
    name ≠ [] ∧ ∀ sp, sub = some sp → sp ≠ [] := by
  unfold segTail at h
  by_cases h1 : (splitSeg rest).1 = []
  · simp [h1] at h
  · rw [if_neg h1] at h
    rcases h2 : (splitSeg rest).2 with _ | sp
    · rw [h2] at h
      simp only [Option.some.injEq, Prod.mk.injEq] at h
      obtain ⟨hn, hsub⟩ := h
      subst hn
      refine ⟨h1, fun sp hsp => ?_⟩
      rw [← hsub] at hsp
      cases hsp
    · rw [h2] at h
      dsimp only at h
      by_cases h3 : sp ≠ [] ∧ sp.all jsDot
      · rw [if_pos h3] at h
        simp only [Option.some.injEq, Prod.mk.injEq] at h
        obtain ⟨hn, hsub⟩ := h
        subst hn
        refine ⟨h1, fun sp' hsp' => ?_⟩
        rw [← hsub] at hsp'
        injection hsp' with hh
        rw [← hh]
        exact h3.1
      · rw [if_neg h3] at h
        cases h

lemma serviceMatch_some {sp svc : List Char} {ssub : Option (List Char)}
    (h : serviceMatch sp = some (svc, ssub)) :
    svc ≠ [] ∧ ∀ w, ssub = some w → w ≠ [] := by
  unfold serviceMatch at h
  rcases hs : stripLit "service/".data sp with _ | r
  · rw [hs] at h; cases h
  · rw [hs] at h; exact segTail_some h

/-- The two-sided property C4 asks of every parse result: an `ok` result
is a fully-filled descriptor and an `error` result carries the
`InvalidRequest` code. -/
def parseOk (r : Except McpErr ResourceDescriptor) : Prop :=
  (∀ d, r = .ok d → descriptorFilled d = true) ∧
  (∀ e, r = .error e → e.code = ECode.invalidRequest)

lemma parseOk_ok {d : ResourceDescriptor} (h : descriptorFilled d = true) :
    parseOk (.ok d) :=
  ⟨fun d' hd => by injection hd with h'; rw [← h']; exact h,
   fun e he => Except.noConfusion he⟩

lemma parseOk_err {msg : String} : parseOk (.error ⟨.invalidRequest, msg⟩) :=
  ⟨fun d hd => Except.noConfusion hd,
   fun e he => by injection he with h'; rw [← h']⟩

lemma hostCheck_parseOk (path : List Char) (uri : String) :
    parseOk (hostCheck path uri) := by
  unfold hostCheck
  rcases hstrip : stripLit "host/".data path with _ | rest
  · exact parseOk_err
  · dsimp only
    by_cases hcond : rest ≠ [] ∧ rest.all jsDot
    · rw [if_pos hcond]
      exact parseOk_ok (by simp [descriptorFilled, clusterKinds, strTruthy_mk hcond.1])
    · rw [if_neg hcond]
      exact parseOk_err

lemma clusterSub_parseOk (name sp path : List Char) (uri : String)
    (hn : name ≠ []) : parseOk (clusterSub name sp path uri) := by
  unfold clusterSub
  have hc := strTruthy_mk hn
  by_cases h1 : sp = "services".data
  · rw [if_pos h1]; exact parseOk_ok (by simp [descriptorFilled, clusterKinds, hc])
  rw [if_neg h1]
  by_cases h2 : sp = "hosts".data
  · rw [if_pos h2]; exact parseOk_ok (by simp [descriptorFilled, clusterKinds, hc])
  rw [if_neg h2]
  by_cases h3 : sp = "alerts".data
  · rw [if_pos h3]; exact parseOk_ok (by simp [descriptorFilled, clusterKinds, hc])
  rw [if_neg h3]
  by_cases h4 : sp = "alerts/summary".data
  · rw [if_pos h4]; exact parseOk_ok (by simp [descriptorFilled, clusterKinds, hc])
  rw [if_neg h4]
  by_cases h5 : sp = "services/stale-configs".data
  · rw [if_pos h5]; exact parseOk_ok (by simp [descriptorFilled, clusterKinds, hc])
  rw [if_neg h5]
  by_cases h6 : sp = "requests/recent".data
  · rw [if_pos h6]; exact parseOk_ok (by simp [descriptorFilled, clusterKinds, hc])
  rw [if_neg h6]
  by_cases h7 : sp = "configurations".data
  · rw [if_pos h7]; exact parseOk_ok (by simp [descriptorFilled, clusterKinds, hc])
  rw [if_neg h7]
  rcases hsm : serviceMatch sp with _ | ⟨svc, ssub⟩
  · exact hostCheck_parseOk path uri
  · obtain ⟨hsvc, hssub⟩ := serviceMatch_some hsm
    cases ssub with
    | none =>
        exact parseOk_ok
          (by simp [descriptorFilled, clusterKinds, hc, strTruthy_mk hsvc])
    | some ssp =>
        dsimp only
        by_cases h8 : ssp = "components".data
        · rw [if_pos h8]
          exact parseOk_ok
            (by simp [descriptorFilled, clusterKinds, hc, strTruthy_mk hsvc])
        · rw [if_neg h8]
          exact hostCheck_parseOk path uri

lemma parse_parseOk (uri : String) : parseOk (parseResourceUri uri) := by
  unfold parseResourceUri
  rcases hs : schemeRest uri.data with _ | path
  · exact parseOk_err
  · dsimp only
    by_cases hc : path = "clusters".data
    · rw [if_pos hc]
      exact parseOk_ok (by simp [descriptorFilled])
    · rw [if_neg hc]
      rcases hstrip : stripLit "cluster/".data path with _ | rest
      · exact hostCheck_parseOk path uri
      · dsimp only
        rcases hseg : segTail rest with _ | ⟨cname, sub⟩
        · exact parseOk_err
        · obtain ⟨hn, _⟩ := segTail_some hseg
          cases sub with
          | none =>
              exact parseOk_ok
                (by simp [descriptorFilled, clusterKinds, strTruthy_mk hn])
          | some sp => exact clusterSub_parseOk cname sp path uri hn

/-! ## Claims -/

/-- C1 counterexample: an alert whose state is the unrecognized non-empty
string `PENDING` is placed in NO bucket (the `alertsByState[state]`
lookup is `undefined`, so the item is dropped): the handler returns
all-empty buckets and a zero summary, so the bucket sizes sum to 0, not
to the input length 1 — refuting the claimed partition. -/
theorem C1_counterexample :
    alertsByState [⟨some "PENDING"⟩] = .ok ⟨[], [], [], []⟩ ∧
    alertsSummary ⟨[], [], [], []⟩ = (0, 0, 0, 0) ∧
    ([(⟨some "PENDING"⟩ : AlertItem)] : List AlertItem).length = 1 :=
  ⟨rfl, rfl, rfl⟩

/-- C1 (amended): when no item's effective state is an inherited
`Object.prototype` property name, the handler succeeds and buckets each
item by its effective state (missing/empty state defaults to UNKNOWN):
each bucket is exactly the input sublist with that effective state, the
four buckets are pairwise disjoint, their sizes sum to the number of
items whose effective state is one of the four known values (items with
any other such state are dropped, so the sum can be less than the input
length), and the summary counts equal the bucket sizes.  When some
item's effective state IS such an inherited property name
(`constructor`, `toString`, `__proto__`, …), the handler instead throws
a `TypeError`. -/
theorem C1_alert_bucketing (items : List AlertItem) :
    ((∀ a ∈ items, isProtoKey (effState a) = false) →
      ∃ b, alertsByState items = .ok b ∧
        b.critical = items.filter (fun a => effState a = "CRITICAL") ∧
        b.warning = items.filter (fun a => effState a = "WARNING") ∧
        b.ok = items.filter (fun a => effState a = "OK") ∧
        b.unknown = items.filter (fun a => effState a = "UNKNOWN") ∧
        (b.critical.Disjoint b.warning ∧ b.critical.Disjoint b.ok ∧
         b.critical.Disjoint b.unknown ∧ b.warning.Disjoint b.ok ∧
         b.warning.Disjoint b.unknown ∧ b.ok.Disjoint b.unknown) ∧
        b.critical.length + b.warning.length + b.ok.length + b.unknown.length
          = (items.filter (fun a => effState a ∈ knownAlertStates)).length ∧
        alertsSummary b
          = (b.critical.length, b.warning.length, b.ok.length, b.unknown.length)) ∧
    ((∃ a ∈ items, isProtoKey (effState a) = true) →
      ∃ e, alertsByState items = .error e) := by
  constructor
  · intro hp
    refine ⟨items.foldl pushAlertP ⟨[], [], [], []⟩,
      alertsFoldM_ok items ⟨[], [], [], []⟩ hp, ?_⟩
    obtain ⟨h1, h2, h3, h4⟩ := alerts_foldl_spec items ⟨[], [], [], []⟩
    have hc : (items.foldl pushAlertP ⟨[], [], [], []⟩).critical
        = items.filter (fun a => effState a = "CRITICAL") := by simpa using h1
    have hw : (items.foldl pushAlertP ⟨[], [], [], []⟩).warning
        = items.filter (fun a => effState a = "WARNING") := by simpa using h2
    have ho : (items.foldl pushAlertP ⟨[], [], [], []⟩).ok
        = items.filter (fun a => effState a = "OK") := by simpa using h3
    have hu : (items.foldl pushAlertP ⟨[], [], [], []⟩).unknown
        = items.filter (fun a => effState a = "UNKNOWN") := by simpa using h4
    have hdisj : ∀ s t : String, s ≠ t →
        (items.filter (fun a => effState a = s)).Disjoint
          (items.filter (fun a => effState a = t)) := by
      intro s t hst x hx hy
      rw [List.mem_filter] at hx hy
      exact hst ((decide_eq_true_eq.mp hx.2) ▸ (decide_eq_true_eq.mp hy.2))
    refine ⟨hc, hw, ho, hu, ⟨?_, ?_, ?_, ?_, ?_, ?_⟩, ?_, rfl⟩
    · rw [hc, hw]; exact hdisj _ _ (by decide)
    · rw [hc, ho]; exact hdisj _ _ (by decide)
    · rw [hc, hu]; exact hdisj _ _ (by decide)
    · rw [hw, ho]; exact hdisj _ _ (by decide)
    · rw [hw, hu]; exact hdisj _ _ (by decide)
    · rw [ho, hu]; exact hdisj _ _ (by decide)
    · rw [hc, hw, ho, hu]; exact alerts_sum_spec items
  · intro hp
    exact alertsFoldM_error items ⟨[], [], [], []⟩ hp

/-- C1 witness: a mixed concrete list — one CRITICAL alert, one with a
missing state, one with an empty state — buckets into CRITICAL and
UNKNOWN, while a single alert whose state is `constructor` makes the
handler throw. -/
theorem C1_witness :
    (∃ b, alertsByState [⟨some "CRITICAL"⟩, ⟨none⟩, ⟨some ""⟩] = .ok b ∧
      b.critical = [⟨some "CRITICAL"⟩] ∧ b.unknown = [⟨none⟩, ⟨some ""⟩]) ∧
    (∃ e, alertsByState [⟨some "constructor"⟩] = .error e) := by
  constructor
  · obtain ⟨b, hb, hcrit, _, _, hunk, _⟩ :=
      (C1_alert_bucketing [⟨some "CRITICAL"⟩, ⟨none⟩, ⟨some ""⟩]).1 (by decide)
    exact ⟨b, hb, by rw [hcrit]; rfl, by rw [hunk]; rfl⟩
  · exact (C1_alert_bucketing [⟨some "constructor"⟩]).2
      ⟨⟨some "constructor"⟩, List.mem_singleton.mpr rfl, by decide⟩

/-- C2 counterexample: the claim says a key whose value is empty is
absent from the transmitted request configuration, but `executeAmbariRequest`
transmits the mapping `{fields: ""}` verbatim — the empty-valued key is
present in the config's `params`. -/
theorem C2_counterexample :
    ∃ sent, configParams [("fields", QVal.str "")] = some sent ∧
      ("fields", QVal.str "") ∈ sent :=
  ⟨[("fields", QVal.str "")], rfl, List.mem_singleton.mpr rfl⟩

/-- C2 (amended): the gateway does no per-key stripping: every key of the
mapping — whatever its value — appears unchanged in the transmitted
config whenever the mapping is non-empty, and the `params` field is
omitted (undefined) exactly when the mapping is empty. -/
theorem C2_params_passthrough (ps : List (String × QVal)) :
    (∀ kv ∈ ps, ∃ qs, configParams ps = some qs ∧ kv ∈ qs) ∧
    (ps = [] → configParams ps = none) := by
  constructor
  · intro kv hkv
    have hne : ps.length ≠ 0 := by
      cases ps with
      | nil => cases hkv
      | cons a l => simp
    exact ⟨ps, by simp [configParams, hne], hkv⟩
  · intro h
    subst h
    rfl

/-- C2 witness: instantiates the passthrough theorem at the one-key
mapping `{fields: "x"}`. -/
theorem C2_witness :
    ∃ qs, configParams [("fields", QVal.str "x")] = some qs ∧
      ("fields", QVal.str "x") ∈ qs :=
  (C2_params_passthrough [("fields", QVal.str "x")]).1
    ("fields", QVal.str "x") (List.mem_singleton.mpr rfl)

/-- C3 counterexample: a connection-aborted failure (code `ECONNABORTED`,
no upstream response) produces TWO cause tags — `Code ECONNABORTED` and
`Timeout` — not exactly one chosen by precedence as the claim states. -/
theorem C3_counterexample :
    summaryParts "GET" "http://ambari.example:8080/api/v1/clusters"
        ⟨none, some "ECONNABORTED", none⟩
      = ["GET http://ambari.example:8080/api/v1/clusters",
         "Code ECONNABORTED", "Timeout"] := rfl

/-- C3 (amended): provided any present upstream response carries a
non-zero status, the summary parts are `METHOD URL` first, then the
cause tag chosen by the stated precedence (`HTTP …` if status, else
`Code …` if code, else `Timeout` if detected, else `No response`) — but
when a timeout is detected one ADDITIONAL tag appears (`Timeout` after
an `HTTP`/`Code` tag, or `No response` after a leading `Timeout` tag),
so the part count is 2 plus 1 when a timeout is detected.  In
particular the summary always names the method, the URL and at least
one cause tag. -/
theorem C3_summary_shape (m u : String) (e : AxiosErr)
    (hres : ∀ r, e.response = some r → r.status ≠ 0) :
    (summaryParts m u e).head? = some (m ++ " " ++ u) ∧
    (summaryParts m u e)[1]? = some (firstCauseTag e) ∧
    (summaryParts m u e).length = 2 + (if isTimeoutErr e then 1 else 0) := by
  obtain ⟨resp, code, msg⟩ := e
  cases resp with
  | some r =>
      have hs : r.status ≠ 0 := hres r rfl
      have hnat : natTruthy (errStatus ⟨some r, code, msg⟩) = true := by
        simp [errStatus, natTruthy, hs]
      by_cases ht : isTimeoutErr ⟨some r, code, msg⟩ = true
      · cases code <;>
          simp [summaryParts, firstCauseTag, hnat, ht]
      · rw [Bool.not_eq_true] at ht
        cases code <;>
          simp [summaryParts, firstCauseTag, hnat, ht]
  | none =>
      have hnat : natTruthy (errStatus ⟨none, code, msg⟩) = false := by
        simp [errStatus, natTruthy]
      cases code with
      | none =>
          by_cases ht : isTimeoutErr ⟨none, none, msg⟩ = true
          · simp [summaryParts, firstCauseTag, hnat, ht, strTruthy]
          · rw [Bool.not_eq_true] at ht
            simp [summaryParts, firstCauseTag, hnat, ht, strTruthy]
      | some c =>
          by_cases hc : c = ""
          · subst hc
            by_cases ht : isTimeoutErr ⟨none, some "", msg⟩ = true
            · simp [summaryParts, firstCauseTag, hnat, ht, strTruthy]
            · rw [Bool.not_eq_true] at ht
              simp [summaryParts, firstCauseTag, hnat, ht, strTruthy]
          · by_cases ht : isTimeoutErr ⟨none, some c, msg⟩ = true
            · simp [summaryParts, firstCauseTag, hnat, ht, strTruthy, hc]
            · rw [Bool.not_eq_true] at ht
              simp [summaryParts, firstCauseTag, hnat, ht, strTruthy, hc]

/-- C3 witness: a plain HTTP 404 failure — the summary parts are the
method/URL line followed by exactly one cause tag `HTTP 404 Not Found`. -/
theorem C3_witness :
    (summaryParts "GET" "http://x" ⟨some ⟨404, "Not Found", none⟩, none, none⟩).head?
      = some "GET http://x" ∧
    (summaryParts "GET" "http://x" ⟨some ⟨404, "Not Found", none⟩, none, none⟩)[1]?
      = some "HTTP 404 Not Found" ∧
    (summaryParts "GET" "http://x" ⟨some ⟨404, "Not Found", none⟩, none, none⟩).length
      = 2 := by
  have h := C3_summary_shape "GET" "http://x" ⟨some ⟨404, "Not Found", none⟩, none, none⟩
    (by intro r hr; injection hr with h1; rw [← h1]; decide)
  refine ⟨by simpa using h.1, ?_, by simpa using h.2.2⟩
  rw [h.2.1]
  rfl

/-- C4: `parseResourceUri` is a total (pure, deterministic) function:
for every input string it either returns a descriptor whose kind is in
the closed set with every required path parameter present and non-empty,
or it fails with an `InvalidRequest` error — it never returns a
partially-filled descriptor. -/
theorem C4_parse_total (uri : String) :
    (∀ d, parseResourceUri uri = Except.ok d → descriptorFilled d = true) ∧
    (∀ e, parseResourceUri uri = Except.error e → e.code = ECode.invalidRequest) :=
  parse_parseOk uri

/-- C4 witness: a recognized URI parses to a fully-filled descriptor and
an unrecognized one fails with the `InvalidRequest` code. -/
theorem C4_witness :
    descriptorFilled ⟨"service-components", some "c1", some "HDFS", none⟩ = true ∧
    (McpErr.mk ECode.invalidRequest "Invalid resource URI: nope://x").code
      = ECode.invalidRequest := by
  constructor
  · exact (C4_parse_total "ambari://cluster/c1/service/HDFS/components").1
      ⟨"service-components", some "c1", some "HDFS", none⟩ rfl
  · exact (C4_parse_total "nope://x").2
      ⟨ECode.invalidRequest, "Invalid resource URI: nope://x"⟩ rfl

/-- C10 counterexample: the remainder `a\nb` after `ambari://host/` is
non-empty, yet parsing fails — the JavaScript regex `.` does not match a
line terminator, so `/^ambari:\/\/(.+)$/` rejects the whole URI. -/
theorem C10_counterexample :
    parseResourceUri "ambari://host/a\nb"
      = Except.error ⟨ECode.invalidRequest,
          "Invalid resource URI: ambari://host/a\nb"⟩ := rfl

/-- C10 (amended): for every non-empty remainder consisting of
`.`-matchable characters (no line terminators), `ambari://host/<rest>`
parses to the `host` kind whose `hostName` is the entire remainder —
including remainders containing `/`. -/
theorem C10_host_remainder (s : String) (h1 : s.data ≠ [])
    (h2 : s.data.all jsDot = true) :
    parseResourceUri ("ambari://host/" ++ s)
      = Except.ok ⟨"host", none, none, some s⟩ := by
  have hdata : ("ambari://host/" ++ s).data
      = 'a' :: 'm' :: 'b' :: 'a' :: 'r' :: 'i' :: ':' :: '/' :: '/' :: 'h' :: 'o' :: 's' :: 't' :: '/' ::s.data := by
    rw [String.data_append]
    rfl
  unfold parseResourceUri
  rw [hdata]
  have hscheme :
      schemeRest ('a' :: 'm' :: 'b' :: 'a' :: 'r' :: 'i' :: ':' :: '/' :: '/' :: 'h' :: 'o' :: 's' :: 't' :: '/' ::s.data)
        = some ('h' :: 'o' :: 's' :: 't' :: '/' ::s.data) := by
    unfold schemeRest
    rw [show stripLit "ambari://".data
        ('a' :: 'm' :: 'b' :: 'a' :: 'r' :: 'i' :: ':' :: '/' :: '/' :: 'h' :: 'o' :: 's' :: 't' :: '/' ::s.data)
        = some ('h' :: 'o' :: 's' :: 't' :: '/' ::s.data) from rfl]
    dsimp only
    rw [if_pos]
    refine ⟨by simp, ?_⟩
    simp [List.all_cons, h2, show jsDot 'h' = true from rfl,
      show jsDot 'o' = true from rfl, show jsDot 's' = true from rfl,
      show jsDot 't' = true from rfl, show jsDot '/' = true from rfl]
  rw [hscheme]
  dsimp only
  have hne : ('h' :: 'o' :: 's' :: 't' :: '/' ::s.data) ≠ "clusters".data := by
    intro hcontra
    rw [show "clusters".data = 'c' :: 'l' :: 'u' :: 's' :: 't' :: 'e' :: 'r' :: 's' ::[] from rfl]
      at hcontra
    injection hcontra with hh _
    exact absurd hh (by decide)
  rw [if_neg hne]
  rw [show stripLit "cluster/".data ('h' :: 'o' :: 's' :: 't' :: '/' ::s.data) = none from rfl]
  dsimp only
  unfold hostCheck
  rw [show stripLit "host/".data ('h' :: 'o' :: 's' :: 't' :: '/' ::s.data) = some s.data
    from rfl]
  dsimp only
  rw [if_pos ⟨h1, h2⟩]

/-- C10 witness: `ambari://host/a/b` parses to the host kind with
`hostName = "a/b"` — the slash-bearing remainder is accepted whole. -/
theorem C10_witness :
    parseResourceUri "ambari://host/a/b"
      = Except.ok ⟨"host", none, none, some "a/b"⟩ := by
  have h := C10_host_remainder "a/b" (by decide) (by decide)
  rw [show ("ambari://host/" ++ "a/b" : String) = "ambari://host/a/b" from rfl] at h
  exact h

/-- C5 counterexample: an input list with one item that carries no
service name produces no groups at all, so the union of all per-service
groups' items (the empty list) does not equal the input list; the
returned total stale-component count nevertheless counts the excluded
item. -/
theorem C5_counterexample :
    staleByService [⟨none, some "DATANODE", some "h1"⟩] = .ok [] ∧
    staleSummary [⟨none, some "DATANODE", some "h1"⟩] [] = (1, 0) ∧
    ([(⟨none, some "DATANODE", some "h1"⟩ : StaleItem)] : List StaleItem).length = 1 :=
  ⟨rfl, rfl, rfl⟩

/-- C5 (amended): when no item's declared service name is an inherited
`Object.prototype` property name, the handler succeeds and the union of
all per-service groups' items is a permutation of the sublist of input
items that carry a (non-empty) service name — items with a missing or
empty service name are excluded from all groups and do not affect the
per-service counts; every group key is a non-empty service name and
every item of a group declares exactly that name; the summary reports
the FULL input length (excluded items included) as the total
stale-component count and the number of groups as the affected-service
count.  When some item's service name IS such an inherited property
name (`constructor`, `__proto__`, …), the handler instead throws a
`TypeError`. -/
theorem C5_stale_grouping (items : List StaleItem) :
    ((∀ it ∈ items, svcProto it = false) →
      ∃ gs, staleByService items = .ok gs ∧
        (groupsFlat gs).Perm (items.filter svcTruthy) ∧
        (∀ g ∈ gs, g.1 ≠ "" ∧ ∀ x ∈ g.2, x.serviceName = some g.1) ∧
        staleSummary items gs = (items.length, gs.length)) ∧
    ((∃ it ∈ items, svcProto it = true) →
      ∃ e, staleByService items = .error e) := by
  constructor
  · intro hp
    refine ⟨items.foldl staleStepP [], staleFoldM_ok items [] hp, ?_, ?_, rfl⟩
    · have h := staleFold_perm items []
      simpa [groupsFlat] using h
    · exact staleFold_wf items [] (fun g hg => absurd hg (List.not_mem_nil g))
  · intro hp
    exact staleFoldM_error items [] (fun g hg => absurd hg (List.not_mem_nil g)) hp

/-- C5 witness: a concrete list with two HDFS items and one item lacking
a service name groups into a single HDFS group whose flattened items are
a permutation of the service-named sublist, with the summary counting
the full input length next to one affected service; a single item whose
service name is `constructor` makes the handler throw. -/
theorem C5_witness :
    (∃ gs, staleByService
        [⟨some "HDFS", some "DATANODE", some "h1"⟩,
         ⟨none, some "X", some "h2"⟩,
         ⟨some "HDFS", some "NAMENODE", some "h1"⟩] = .ok gs ∧
      (groupsFlat gs).Perm
        (([⟨some "HDFS", some "DATANODE", some "h1"⟩,
           ⟨none, some "X", some "h2"⟩,
           ⟨some "HDFS", some "NAMENODE", some "h1"⟩] :
            List StaleItem).filter svcTruthy) ∧
      staleSummary
        [⟨some "HDFS", some "DATANODE", some "h1"⟩,
         ⟨none, some "X", some "h2"⟩,
         ⟨some "HDFS", some "NAMENODE", some "h1"⟩] gs = (3, gs.length)) ∧
    (∃ e, staleByService [⟨some "constructor", some "C", some "h"⟩] = .error e) := by
  constructor
  · obtain ⟨gs, hgs, hperm, _, hsum⟩ :=
      (C5_stale_grouping
        [⟨some "HDFS", some "DATANODE", some "h1"⟩,
         ⟨none, some "X", some "h2"⟩,
         ⟨some "HDFS", some "NAMENODE", some "h1"⟩]).1 (by decide)
    exact ⟨gs, hgs, hperm, hsum⟩
  · exact (C5_stale_grouping [⟨some "constructor", some "C", some "h"⟩]).2
      ⟨⟨some "constructor", some "C", some "h"⟩, List.mem_singleton.mpr rfl, by decide⟩

/-- C6: a failure whose connection code is the explicit timeout code
`ECONNABORTED` is classified as a timeout in the diagnostics
(`details.timeout = true`), and, separately, a failure whose message
matches the `/timeout/i` pattern but carries no such code is classified
as a timeout as well. -/
theorem C6_timeout_classification (url m : String) (ps : List (String × QVal))
    (e : AxiosErr) :
    (e.code = some "ECONNABORTED" → (buildDetails url m ps e).timeout = some true) ∧
    (timeoutTest (e.message.getD "") = true → e.code ≠ some "ECONNABORTED" →
      (buildDetails url m ps e).timeout = some true) := by
  constructor
  · intro h
    simp [buildDetails, isTimeoutErr, h]
  · intro h _
    simp [buildDetails, isTimeoutErr, h]

/-- C6 witness: an `ECONNABORTED` failure without a response, and a
code-less failure whose message says `Request Timeout exceeded`, are
both marked `timeout: true` in the diagnostics. -/
theorem C6_witness :
    (buildDetails "http://x" "GET" [] ⟨none, some "ECONNABORTED", none⟩).timeout
      = some true ∧
    (buildDetails "http://x" "GET" []
      ⟨none, none, some "Request Timeout exceeded"⟩).timeout = some true := by
  constructor
  · exact (C6_timeout_classification "http://x" "GET" []
      ⟨none, some "ECONNABORTED", none⟩).1 rfl
  · exact (C6_timeout_classification "http://x" "GET" []
      ⟨none, none, some "Request Timeout exceeded"⟩).2 (by decide) (by decide)

/-- C7: the properties submitted by the save-alert-settings executor are
the current properties with `alerts_repeat_tolerance` set to the
stringified tolerance; every other key keeps its original value
(nothing unrelated is dropped or altered). -/
theorem C7_save_alert_settings (props : List (String × String)) (t : Int) :
    lookupStr (saveAlertSettingsBody props t).properties "alerts_repeat_tolerance"
      = some (toString t) ∧
    (∀ k, k ≠ "alerts_repeat_tolerance" →
      lookupStr (saveAlertSettingsBody props t).properties k = lookupStr props k) ∧
    (saveAlertSettingsBody props t).type = "cluster-env" := by
  refine ⟨?_, ?_, rfl⟩
  · exact lookup_setKey_self props "alerts_repeat_tolerance" (toString t)
  · intro k hk
    exact lookup_setKey_other props "alerts_repeat_tolerance" (toString t) k hk

/-- C7 witness: the spec's example — current properties
`{a: "1", b: "2"}` and tolerance `5` — yields submitted properties in
which `a` and `b` are untouched and `alerts_repeat_tolerance` is `"5"`. -/
theorem C7_witness :
    lookupStr (saveAlertSettingsBody [("a", "1"), ("b", "2")] 5).properties
      "alerts_repeat_tolerance" = some "5" ∧
    lookupStr (saveAlertSettingsBody [("a", "1"), ("b", "2")] 5).properties "a"
      = some "1" ∧
    lookupStr (saveAlertSettingsBody [("a", "1"), ("b", "2")] 5).properties "b"
      = some "2" := by
  have h := C7_save_alert_settings [("a", "1"), ("b", "2")] 5
  refine ⟨by simpa using h.1, ?_, ?_⟩
  · rw [h.2.1 "a" (by decide)]; rfl
  · rw [h.2.1 "b" (by decide)]; rfl

/-- C8: for a source definitions list mixing raw numeric IDs and objects
exposing an `id` field (in any arrangement), the duplicate-alert-group
executor extracts exactly the numeric IDs in order and creates the new
group with that list under the new name. -/
theorem C8_duplicate_alert_group (name : String) (ids : List (Bool × Int)) :
    (duplicateGroupBody name (mixedDefs ids)).definitions = ids.map Prod.snd ∧
    (duplicateGroupBody name (mixedDefs ids)).name = name := by
  refine ⟨?_, rfl⟩
  show extractDefinitionIds (mixedDefs ids) = ids.map Prod.snd
  have key : ∀ (l : List (Bool × Int)) (acc : List Int),
      (mixedDefs l).foldl extractStep acc = acc ++ l.map Prod.snd := by
    intro l
    induction l with
    | nil => intro acc; simp [mixedDefs]
    | cons p l ih =>
        intro acc
        have hstep : extractStep acc (if p.1 then AlertDef.num p.2 else AlertDef.objWithId p.2)
            = acc ++ [p.2] := by
          cases p.1 <;> simp [extractStep]
        simp only [mixedDefs, List.map_cons, List.foldl_cons]
        rw [show List.foldl extractStep (extractStep acc (if p.1 = true then AlertDef.num p.2 else AlertDef.objWithId p.2)) (List.map (fun p => if p.1 = true then AlertDef.num p.2 else AlertDef.objWithId p.2) l) = (mixedDefs l).foldl extractStep (extractStep acc (if p.1 = true then AlertDef.num p.2 else AlertDef.objWithId p.2)) from rfl]
        rw [hstep, ih]
        simp
  exact key ids []

/-- C8 witness: the spec's example — source definitions
`[3, {id: 7}, 9]` — yields a created group with definition list
`[3, 7, 9]`. -/
theorem C8_witness :
    (duplicateGroupBody "copy" (mixedDefs [(true, 3), (false, 7), (true, 9)])).definitions
      = [3, 7, 9] ∧
    (duplicateGroupBody "copy" (mixedDefs [(true, 3), (false, 7), (true, 9)])).name
      = "copy" := by
  have h := C8_duplicate_alert_group "copy" [(true, 3), (false, 7), (true, 9)]
  exact ⟨by simpa using h.1, h.2⟩

/-- C9: the get-cluster tool with `clusterName = "prod"` and no `fields`
override issues exactly one request — a GET to `/clusters/prod` whose
params mapping is empty, so the transmitted config carries no query
parameters — and the success envelope returns the upstream body
unchanged together with the upstream status and status text. -/
theorem C9_get_cluster (baseUrl : String) :
    getClusterRequest "prod" none = ⟨"GET", "/clusters/prod", []⟩ ∧
    (buildAxiosCfg baseUrl (getClusterRequest "prod" none)).params = none ∧
    (buildAxiosCfg baseUrl (getClusterRequest "prod" none)).url
      = baseUrl ++ "/clusters/prod" ∧
    (∀ (α : Type) (resp : HttpResponse α),
      (successEnvelope resp).data = resp.data ∧
      (successEnvelope resp).status = resp.status ∧
      (successEnvelope resp).statusText = resp.statusText) := by
  exact ⟨rfl, rfl, rfl, fun α resp => ⟨rfl, rfl, rfl⟩⟩

/-- C9 witness: instantiates the scenario at a concrete base URL and a
concrete upstream response. -/
theorem C9_witness :
    (buildAxiosCfg "http://localhost:8080/api/v1" (getClusterRequest "prod" none)).url
      = "http://localhost:8080/api/v1/clusters/prod" ∧
    (buildAxiosCfg "http://localhost:8080/api/v1" (getClusterRequest "prod" none)).params
      = none ∧
    (successEnvelope ⟨200, "OK", (42 : Nat)⟩).data = 42 := by
  have h := C9_get_cluster "http://localhost:8080/api/v1"
  exact ⟨by rw [h.2.2.1]; rfl, h.2.1, (h.2.2.2 Nat ⟨200, "OK", 42⟩).1⟩

end AmbariMcp
